import Mathlib

/-!
Shallow embedding of `crop_and_resize_circles.py`: the per-image
detect → mask → crop → multi-resolution export pipeline, its argument
parsing, and its top-level exit behavior.

Images are modelled as a height, a width and a total pixel function
`row → col → channel → value`; machine `uint16` arithmetic (the
`np.uint16` conversion of detector output) is modelled on `Nat` with
explicit `% 65536`.
-/

namespace CropResize

/-- A detected circle after `circles = np.uint16(np.around(circles))`
(line 145): `cx`, `cy`, `r` are the stored unsigned 16-bit values. -/
structure Circle where
  cx : Nat
  cy : Nat
  r : Nat

/-- Raster image: height, width and a total pixel function
`row → col → channel → value` (row-major, origin top-left). -/
structure Img where
  h : Nat
  w : Nat
  pix : Nat → Nat → Nat → Nat

/-- Unsigned 16-bit reduction. -/
def u16 (n : Nat) : Nat := n % 65536

/-- numpy `uint16` subtraction `a - b` for operands already `< 65536`:
wraps modulo `2^16`. -/
def u16sub (a b : Nat) : Nat := (a + 65536 - b) % 65536

/-- numpy `uint16` addition `a + b`: wraps modulo `2^16`. -/
def u16add (a b : Nat) : Nat := (a + b) % 65536

/-- Number of indices selected by a Python/numpy slice `[start:stop]` on an
axis of length `len` (nonnegative indices: both bounds clamp to `len`). -/
def slice1D (len start stop : Nat) : Nat := min stop len - min start len

/-- Height of `src_circle[i[1]-i[2]:i[1]+i[2], ...]` (line 185): row bounds
are computed in `uint16` arithmetic, then clamped by numpy slicing. -/
def cropH (h : Nat) (c : Circle) : Nat := slice1D h (u16sub c.cy c.r) (u16add c.cy c.r)

/-- Width of the column slice `i[0]-i[2]:i[0]+i[2]` of line 185. -/
def cropW (w : Nat) (c : Circle) : Nat := slice1D w (u16sub c.cx c.r) (u16add c.cx c.r)

/-- numpy 2-D slice `img[r0:r1, c0:c1]` with nonnegative bounds: both
bounds clamp to the axis length, and pixel `(y, x)` of the result is pixel
`(min r0 h + y, min c0 w + x)` of the input. -/
def pySlice (img : Img) (r0 r1 c0 c1 : Nat) : Img :=
  ⟨min r1 img.h - min r0 img.h, min c1 img.w - min c0 img.w,
   fun y x ch => img.pix (min r0 img.h + y) (min c0 img.w + x) ch⟩

/-- Line 185: `src_circle[i[1]-i[2]:i[1]+i[2], i[0]-i[2]:i[0]+i[2]]`, the
bounding-square crop, with all four bounds computed in `uint16`. -/
def cropCircle (img : Img) (c : Circle) : Img :=
  pySlice img (u16sub c.cy c.r) (u16add c.cy c.r) (u16sub c.cx c.r) (u16add c.cx c.r)

/-- Membership of pixel `(x, y)` in the closed disc of radius `c.r` around
`(c.cx, c.cy)`. -/
def inDisc (c : Circle) (y x : Nat) : Bool :=
  decide (((x : Int) - c.cx) ^ 2 + ((y : Int) - c.cy) ^ 2 ≤ (c.r : Int) ^ 2)

/-- Line 173: `np.zeros_like(src)` — same extent, every value 0. -/
def zerosLike (src : Img) : Img := ⟨src.h, src.w, fun _ _ _ => 0⟩

/-- Model of the external capability `cv2.circle(img, center, radius, v, -1)`
(line 174): fills the solid disc with value `v` in every channel, leaving the
rest of the image unchanged ("a filled solid disc is the contract"). -/
def cvCircleFill (img : Img) (c : Circle) (v : Nat) : Img :=
  ⟨img.h, img.w, fun y x ch => if inDisc c y x then v else img.pix y x ch⟩

/-- Line 179: `cv2.cvtColor(src, cv2.COLOR_BGR2BGRA)` — the three color
channels are copied verbatim and the new alpha channel is opaque (255). -/
def bgr2bgra (src : Img) : Img :=
  ⟨src.h, src.w, fun y x ch => if ch < 3 then src.pix y x ch else 255⟩

/-- Line 180: `src_circle[:, :, 3] = mask[:, :, 0]` — channel 3 replaced by
channel 0 of the mask, other channels kept. -/
def setAlpha (img mask : Img) : Img :=
  ⟨img.h, img.w, fun y x ch => if ch = 3 then mask.pix y x 0 else img.pix y x ch⟩

/-- Lines 173-180: the masked image for one circle — BGRA copy of the
source whose alpha channel is the filled-disc mask's first channel. -/
def maskedOf (src : Img) (c : Circle) : Img :=
  setAlpha (bgr2bgra src) (cvCircleFill (zerosLike src) c 255)

theorem u16sub_of_le (a b : Nat) (hba : b ≤ a) (ha : a < 65536) :
    u16sub a b = a - b := by
  unfold u16sub
  rw [show a + 65536 - b = (a - b) + 65536 by omega, Nat.add_mod_right,
    Nat.mod_eq_of_lt (by omega)]

theorem u16sub_of_lt (a b : Nat) (hab : a < b) :
    u16sub a b = a + 65536 - b := by
  unfold u16sub
  exact Nat.mod_eq_of_lt (by omega)

theorem u16add_of_lt (a b : Nat) (hab : a + b < 65536) : u16add a b = a + b :=
  Nat.mod_eq_of_lt hab

/-- When the slice start underflows (`a < r`), the selected length is
strictly below the full side `2*r`, whatever the axis length. -/
theorem slice1D_underflow (len a r : Nat) (har : a < r) (hr : r < 65536)
    (ha : a < 65536) : slice1D len (u16sub a r) (u16add a r) < 2 * r := by
  rw [u16sub_of_lt a r har]
  unfold slice1D u16add
  rcases Nat.lt_or_ge (a + r) 65536 with hlt | hge
  · rw [Nat.mod_eq_of_lt hlt]
    omega
  · have h2 : (a + r) % 65536 = a + r - 65536 := by
      rw [Nat.mod_eq_sub_mod hge, Nat.mod_eq_of_lt (by omega)]
    rw [h2]
    omega

/-- In-bounds slicing: when `r ≤ a` and `a + r ≤ len < 65536` the uint16
arithmetic does not wrap and the slice keeps exactly `2*r` indices. -/
theorem slice1D_inBounds (len a r : Nat) (hra : r ≤ a) (hin : a + r ≤ len)
    (hlen : len < 65536) :
    slice1D len (u16sub a r) (u16add a r) = 2 * r := by
  rw [u16sub_of_le a r hra (by omega), u16add_of_lt a r (by omega)]
  unfold slice1D
  omega

/-! ## Hough invocation (lines 134-138) -/

/-- Line 10: `MAX_RADIUS_OF_CIRCLES_TO_BE_DETECTED = 500`. -/
def MAX_RADIUS_OF_CIRCLES_TO_BE_DETECTED : Nat := 500

/-- Tuning parameters handed to the external Hough-circle capability. -/
structure HoughArgs where
  dp : Nat
  minDist : Nat
  param1 : Nat
  param2 : Nat
  minRadius : Nat
  maxRadius : Nat

/-- Lines 136-138: `cv2.HoughCircles(gray, HOUGH_GRADIENT, dp=1, minDist=rows,
param1=400, param2=1, minRadius=100, maxRadius=MAX_RADIUS...-1)` where
`rows = gray.shape[0]`. -/
def houghCirclesArgs (grayRows : Nat) : HoughArgs :=
  ⟨1, grayRows, 400, 1, 100, MAX_RADIUS_OF_CIRCLES_TO_BE_DETECTED - 1⟩

/-- Line 126: model of the external capability `cv2.cvtColor(src, BGR2GRAY)`:
single channel of the same extent; pixel values are the usual BGR luma
combination (the exact values feed only the external detector). -/
def grayscaleOf (src : Img) : Img :=
  ⟨src.h, src.w, fun y x _ =>
    (299 * src.pix y x 2 + 587 * src.pix y x 1 + 114 * src.pix y x 0) / 1000⟩

/-- Line 130: model of the external smoothing capability
`cv2.medianBlur(gray, 5)`. It preserves the image extent — the only thing
the pipeline itself observes, since the smoothed pixels go straight into
the external detector; the pixel content is therefore not remodelled. -/
def medianBlur5 (img : Img) : Img := ⟨img.h, img.w, img.pix⟩

/-- Lines 126-138: the arguments the pipeline passes to the detector for a
given source image: `rows` is the height of the blurred grayscale image. -/
def houghInvocationFor (src : Img) : HoughArgs :=
  houghCirclesArgs (medianBlur5 (grayscaleOf src)).h

/-! ## Per-image export loop (lines 144-242)

Filesystem writes are modelled by an oracle `String → Bool` telling whether
writing a given file name succeeds (`cv2.imwrite` raising = `false`, caught
by the surrounding `try`).  The loop result is
`(successfully written names in order, final circle_count, crashed)` where
`crashed` records an exception that no handler catches: `cv2.cvtColor` on
an empty crop (line 190) or `cv2.resize` to a non-positive resolution
(line 220), both outside every `try` block. -/

/-- Lines 195-198: name of the large (unresized) export for the current
`circle_count`. -/
def largeName (nameOnly ext : String) (cc : Nat) : String :=
  if cc = 1 then nameOnly ++ "_" ++ "large" ++ ext
  else nameOnly ++ "_" ++ toString cc ++ "_" ++ "large" ++ ext

/-- Lines 222-225: name of the resized export at resolution `res` for the
current `circle_count`. -/
def resName (nameOnly ext : String) (cc : Nat) (res : Int) : String :=
  if cc = 1 then nameOnly ++ "_" ++ toString res ++ "x" ++ toString res ++ ext
  else nameOnly ++ "_" ++ toString cc ++ "_" ++ toString res ++ "x" ++ toString res ++ ext

/-- Lines 219-236: the inner resolutions loop for one circle.  `cv2.resize`
to a non-positive size raises outside the `try` (crash); a failed
`cv2.imwrite` is caught: `circle_count -= 1` then `break`. -/
def exportResolutions (oracle : String → Bool) (nameOnly ext : String) (cc : Nat) :
    List Int → List String × Nat × Bool
  | [] => ([], cc, false)
  | res :: rest =>
    if res ≤ 0 then ([], cc, true)
    else
      let nm := resName nameOnly ext cc res
      if oracle nm then
        let t := exportResolutions oracle nameOnly ext cc rest
        (nm :: t.1, t.2.1, t.2.2)
      else ([], cc - 1, false)

/-- Lines 147-242, one iteration: increment `circle_count`; `cv2.cvtColor`
of the crop (line 190) raises uncaught if the crop is empty; otherwise
write the large export (on failure: `circle_count -= 1`, `continue`), then
run the resolutions loop. -/
def processCircle (oracle : String → Bool) (nameOnly ext : String) (h w : Nat)
    (ress : List Int) (cc0 : Nat) (c : Circle) : List String × Nat × Bool :=
  let cc := cc0 + 1
  if cropH h c = 0 ∨ cropW w c = 0 then ([], cc, true)
  else
    let ln := largeName nameOnly ext cc
    if oracle ln then
      let t := exportResolutions oracle nameOnly ext cc ress
      (ln :: t.1, t.2.1, t.2.2)
    else ([], cc - 1, false)

/-- Lines 144-242: the per-image loop over the detector's circle sequence,
threading `circle_count`.  An uncaught exception aborts the remaining
circles (and, at run level, the remaining images). -/
def processCircles (oracle : String → Bool) (nameOnly ext : String) (h w : Nat)
    (ress : List Int) : Nat → List Circle → List String × Nat × Bool
  | cc, [] => ([], cc, false)
  | cc, c :: cs =>
    let p := processCircle oracle nameOnly ext h w ress cc c
    if p.2.2 then (p.1, p.2.1, true)
    else
      let q := processCircles oracle nameOnly ext h w ress p.2.1 cs
      (p.1 ++ q.1, q.2.1, q.2.2)

/-- One source image as the run-level loop sees it: its base name, its
pixel extent, and the circle sequence the detector returned for it. -/
structure ImgCase where
  nameOnly : String
  h : Nat
  w : Nat
  circles : List Circle

/-- Lines 105-243: the run-level walk.  Each image's circles are processed
with `circle_count` starting at 0; an uncaught exception inside one image's
processing propagates out of `main`, so no later image is processed. -/
def processImages (oracle : String → Bool) (ext : String) (ress : List Int) :
    List ImgCase → List String × Bool
  | [] => ([], false)
  | im :: rest =>
    let p := processCircles oracle im.nameOnly ext im.h im.w ress 0 im.circles
    if p.2.2 then (p.1, true)
    else
      let q := processImages oracle ext ress rest
      (p.1 ++ q.1, q.2)

/-! ## Argument handling (lines 37-96) and exit behavior (lines 244-246) -/

/-- Line 58: `valid_extensions = [".jpg", ".jpeg", ".png", ".bmp"]`. -/
def validExtensions : List String := [".jpg", ".jpeg", ".png", ".bmp"]

/-- Model of Python `s.startswith(".")` (line 63). -/
def startsWithDot (s : String) : Bool :=
  match s.toList with
  | '.' :: _ => true
  | _ => false

/-- Lines 63-64: prepend a dot when the given extension lacks one. -/
def normExt (s : String) : String :=
  if startsWithDot s then s else "." ++ s

/-- Digit-string value used by the model of the Python builtin `int`. -/
def natOfDigits (ds : List Char) : Option Nat :=
  match ds with
  | [] => none
  | _ =>
    if ds.all Char.isDigit then
      some (ds.foldl (fun a c => a * 10 + (c.toNat - 48)) 0)
    else none

/-- Leading and trailing whitespace removed, as Python `int` does before
parsing. -/
def trimChars (ds : List Char) : List Char :=
  ((ds.dropWhile Char.isWhitespace).reverse.dropWhile Char.isWhitespace).reverse

/-- Model of the Python builtin `int(s)`: surrounding whitespace stripped,
an optional sign followed by a nonempty run of decimal digits; anything
else raises `ValueError` (`none`). -/
def pyIntChars (ds : List Char) : Option Int :=
  match trimChars ds with
  | '+' :: t => (natOfDigits t).map Int.ofNat
  | '-' :: t => (natOfDigits t).map (fun n => -(n : Int))
  | t => (natOfDigits t).map Int.ofNat

/-- The Python builtin `int` applied to a string. -/
def pyInt (s : String) : Option Int := pyIntChars s.toList

/-- Model of Python `s.strip("[]")` (line 85): drop leading and trailing
square brackets. -/
def stripSquareChars (ds : List Char) : List Char :=
  ((ds.dropWhile fun c => c = '[' ∨ c = ']').reverse.dropWhile
    fun c => c = '[' ∨ c = ']').reverse

/-- Model of Python `s.split(",")`: split at every comma, keeping empty
pieces; the empty string yields one empty piece. -/
def splitComma : List Char → List (List Char)
  | [] => [[]]
  | c :: rest =>
    if c = ',' then [] :: splitComma rest
    else
      match splitComma rest with
      | g :: gs => (c :: g) :: gs
      | [] => [[c]]

/-- Line 85: `[int(x) for x in argv[4].strip("[]").split(",")]`; a
`ValueError` on any element fails the whole list. -/
def parseResolutions (s : String) : Option (List Int) :=
  (splitComma (stripSquareChars s.toList)).mapM pyIntChars

/-- The three optional settings once parsing succeeds. -/
structure Config where
  ext : String
  compression : Int
  resolutions : List Int
deriving DecidableEq

/-- Lines 61-70: the extension argument, defaulting to `".png"`,
dot-normalized and checked against `validExtensions`. -/
def extOf (rest : List String) : Option String :=
  match rest.get? 0 with
  | none => some ".png"
  | some e => if normExt e ∈ validExtensions then some (normExt e) else none

/-- Lines 73-80: the compression argument, defaulting to 0, `int`-parsed
with no further range validation. -/
def compOf (rest : List String) : Option Int :=
  match rest.get? 1 with
  | none => some (0 : Int)
  | some s => pyInt s

/-- Lines 83-90: the resolutions argument, defaulting to `[1000]`. -/
def resolutionsOf (rest : List String) : Option (List Int) :=
  match rest.get? 2 with
  | none => some [1000]
  | some s => parseResolutions s

/-- Lines 40-90: argument validation of `main` — `none` is a usage error
(`return -1` before any file is processed). -/
def parseArgs (argv : List String) : Option Config :=
  match argv with
  | _src :: _dst :: rest =>
    match extOf rest, compOf rest, resolutionsOf rest with
    | some e, some c, some r => some ⟨e, c, r⟩
    | _, _, _ => none
  | _ => none

/-- Lines 37-244: the value `main(argv)` returns, with the filesystem check
`os.path.isdir(src_folder)` abstracted as `srcIsDir`: -1 on any usage
error, 0 once the walk completes (per-file write failures are caught and
do not change this). -/
def mainRet (argv : List String) (srcIsDir : Bool) : Int :=
  if argv.length < 2 then -1
  else if !srcIsDir then -1
  else
    match parseArgs argv with
    | some _ => 0
    | none => -1

/-- Lines 245-246: `if __name__ == "__main__": main(sys.argv[1:])` — the
value `main` returns is discarded, so whenever `main` returns (rather than
raising), the interpreter exits with status 0. -/
def scriptExitStatus (argv : List String) (srcIsDir : Bool) : Int :=
  let _ret := mainRet argv srcIsDir
  0

/-! ## Lemmas about the export loop -/

theorem exportResolutions_crash_false (oracle : String → Bool) (n e : String)
    (cc : Nat) (ress : List Int) (hres : ∀ r ∈ ress, 0 < r) :
    (exportResolutions oracle n e cc ress).2.2 = false := by
  induction ress with
  | nil => rfl
  | cons r rest ih =>
    have hr : 0 < r := hres r (by simp)
    have hrest : ∀ x ∈ rest, 0 < x := fun x hx => hres x (by simp [hx])
    simp only [exportResolutions]
    rw [if_neg (by omega)]
    by_cases ho : oracle (resName n e cc r)
    · simp [ho, ih hrest]
    · simp [ho]

theorem exportResolutions_writes (oracle : String → Bool) (n e : String)
    (cc : Nat) (ress : List Int) (hres : ∀ r ∈ ress, 0 < r) :
    (exportResolutions oracle n e cc ress).1
      = ((ress.takeWhile fun r => oracle (resName n e cc r)).map (resName n e cc)) := by
  induction ress with
  | nil => rfl
  | cons r rest ih =>
    have hr : 0 < r := hres r (by simp)
    have hrest : ∀ x ∈ rest, 0 < x := fun x hx => hres x (by simp [hx])
    simp only [exportResolutions, List.takeWhile]
    rw [if_neg (by omega)]
    by_cases ho : oracle (resName n e cc r)
    · simp [ho, ih hrest]
    · simp [ho]

theorem exportResolutions_success (oracle : String → Bool) (n e : String)
    (cc : Nat) (ress : List Int) (hor : ∀ nm, oracle nm = true)
    (hres : ∀ r ∈ ress, 0 < r) :
    exportResolutions oracle n e cc ress = (ress.map (resName n e cc), cc, false) := by
  induction ress with
  | nil => rfl
  | cons r rest ih =>
    have hr : 0 < r := hres r (by simp)
    have hrest : ∀ x ∈ rest, 0 < x := fun x hx => hres x (by simp [hx])
    simp only [exportResolutions]
    rw [if_neg (by omega)]
    simp [hor, ih hrest]

theorem processCircle_largeFail (oracle : String → Bool) (n e : String) (h w : Nat)
    (ress : List Int) (cc0 : Nat) (c : Circle)
    (hc : 0 < cropH h c ∧ 0 < cropW w c)
    (ho : oracle (largeName n e (cc0 + 1)) = false) :
    processCircle oracle n e h w ress cc0 c = ([], cc0, false) := by
  simp only [processCircle]
  rw [if_neg (by omega), ho]
  simp

theorem processCircle_largeOk (oracle : String → Bool) (n e : String) (h w : Nat)
    (ress : List Int) (cc0 : Nat) (c : Circle)
    (hc : 0 < cropH h c ∧ 0 < cropW w c)
    (ho : oracle (largeName n e (cc0 + 1)) = true)
    (hres : ∀ r ∈ ress, 0 < r) :
    processCircle oracle n e h w ress cc0 c
      = (largeName n e (cc0 + 1) ::
           ((ress.takeWhile fun r => oracle (resName n e (cc0 + 1) r)).map
             (resName n e (cc0 + 1))),
         (exportResolutions oracle n e (cc0 + 1) ress).2.1, false) := by
  simp only [processCircle]
  rw [if_neg (by omega), ho]
  simp [exportResolutions_writes oracle n e (cc0 + 1) ress hres,
    exportResolutions_crash_false oracle n e (cc0 + 1) ress hres]

theorem processCircle_crash_false (oracle : String → Bool) (n e : String) (h w : Nat)
    (ress : List Int) (cc0 : Nat) (c : Circle)
    (hc : 0 < cropH h c ∧ 0 < cropW w c)
    (hres : ∀ r ∈ ress, 0 < r) :
    (processCircle oracle n e h w ress cc0 c).2.2 = false := by
  simp only [processCircle]
  rw [if_neg (by omega)]
  by_cases ho : oracle (largeName n e (cc0 + 1))
  · simp [ho, exportResolutions_crash_false oracle n e (cc0 + 1) ress hres]
  · simp [ho]

theorem processCircle_success (oracle : String → Bool) (n e : String) (h w : Nat)
    (ress : List Int) (cc0 : Nat) (c : Circle)
    (hor : ∀ nm, oracle nm = true)
    (hc : 0 < cropH h c ∧ 0 < cropW w c)
    (hres : ∀ r ∈ ress, 0 < r) :
    processCircle oracle n e h w ress cc0 c
      = (largeName n e (cc0 + 1) :: ress.map (resName n e (cc0 + 1)), cc0 + 1, false) := by
  simp only [processCircle]
  rw [if_neg (by omega), hor]
  simp [exportResolutions_success oracle n e (cc0 + 1) ress hor hres]

theorem processCircles_cons (oracle : String → Bool) (n e : String) (h w : Nat)
    (ress : List Int) (cc : Nat) (c : Circle) (cs : List Circle)
    (hc : 0 < cropH h c ∧ 0 < cropW w c)
    (hres : ∀ r ∈ ress, 0 < r) :
    processCircles oracle n e h w ress cc (c :: cs)
      = ((processCircle oracle n e h w ress cc c).1
           ++ (processCircles oracle n e h w ress
                 (processCircle oracle n e h w ress cc c).2.1 cs).1,
         (processCircles oracle n e h w ress
            (processCircle oracle n e h w ress cc c).2.1 cs).2.1,
         (processCircles oracle n e h w ress
            (processCircle oracle n e h w ress cc c).2.1 cs).2.2) := by
  simp only [processCircles]
  rw [if_neg (by simp [processCircle_crash_false oracle n e h w ress cc c hc hres])]

/-- Write names expected when every write succeeds: the circle at 0-based
position `i` (of `k`) uses naming index `cc0 + i + 1` for its large export
and then one resized export per resolution, in list order. -/
def expectedWrites (nameOnly ext : String) (ress : List Int) : Nat → Nat → List String
  | _, 0 => []
  | cc0, k + 1 =>
    (largeName nameOnly ext (cc0 + 1) :: ress.map (resName nameOnly ext (cc0 + 1)))
      ++ expectedWrites nameOnly ext ress (cc0 + 1) k

theorem processCircles_success (oracle : String → Bool) (n e : String) (h w : Nat)
    (ress : List Int) (hor : ∀ nm, oracle nm = true)
    (hres : ∀ r ∈ ress, 0 < r) :
    ∀ (cs : List Circle) (cc0 : Nat),
      (∀ c ∈ cs, 0 < cropH h c ∧ 0 < cropW w c) →
      processCircles oracle n e h w ress cc0 cs
        = (expectedWrites n e ress cc0 cs.length, cc0 + cs.length, false) := by
  intro cs
  induction cs with
  | nil => intro cc0 _; rfl
  | cons c rest ih =>
    intro cc0 hcrop
    have hc : 0 < cropH h c ∧ 0 < cropW w c := hcrop c (by simp)
    have hrest : ∀ x ∈ rest, 0 < cropH h x ∧ 0 < cropW w x :=
      fun x hx => hcrop x (by simp [hx])
    simp only [processCircles]
    rw [processCircle_success oracle n e h w ress cc0 c hor hc hres]
    simp only [ih (cc0 + 1) hrest]
    simp only [List.length_cons, expectedWrites]
    simp
    omega

theorem expectedWrites_length (n e : String) (ress : List Int) :
    ∀ (k cc0 : Nat), (expectedWrites n e ress cc0 k).length = k * (1 + ress.length) := by
  intro k
  induction k with
  | zero => intro cc0; simp [expectedWrites]
  | succ m ih =>
    intro cc0
    simp only [expectedWrites, List.length_append, List.length_cons, List.length_map,
      ih (cc0 + 1)]
    ring

theorem processCircles_crash_false (oracle : String → Bool) (n e : String) (h w : Nat)
    (ress : List Int) (hres : ∀ r ∈ ress, 0 < r) :
    ∀ (cs : List Circle) (cc : Nat),
      (∀ x ∈ cs, 0 < cropH h x ∧ 0 < cropW w x) →
      (processCircles oracle n e h w ress cc cs).2.2 = false := by
  intro cs
  induction cs with
  | nil => intro cc _; rfl
  | cons c rest ih =>
    intro cc hcrop
    have hc : 0 < cropH h c ∧ 0 < cropW w c := hcrop c (by simp)
    have hrest : ∀ x ∈ rest, 0 < cropH h x ∧ 0 < cropW w x :=
      fun x hx => hcrop x (by simp [hx])
    rw [processCircles_cons oracle n e h w ress cc c rest hc hres]
    exact ih _ hrest

/-! ## Claims -/

/-- C1, counterexample: in an image with two detected circles and no write
failures, the large export of the first circle is written as
`a_large.png`, not `a_1_large.png` as the claim requires for every circle
including the first (lines 195-196 branch on `circle_count == 1`). -/
theorem C1_counterexample :
    (processCircles (fun _ => true) "a" ".png" 1000 1000 [] 0
        [⟨500, 500, 100⟩, ⟨300, 300, 100⟩]).1 = ["a_large.png", "a_2_large.png"] ∧
    "a_large.png" ≠ "a_1_large.png" := by
  constructor
  · decide
  · decide

/-- C1 (amended): absent write failures and uncaught exceptions, the
naming index of each circle equals its 1-based position in the detector's
output sequence, but the first circle's large export is named
`<name_only>_large<ext>` (no index) even when more circles follow, while
the Nth circle for N ≥ 2 is named `<name_only>_<N>_large<ext>`; a write
failure decrements the counter and shifts the indices of later circles. -/
theorem C1_naming_indices (oracle : String → Bool) (n e : String) (h w : Nat)
    (ress : List Int) (cs : List Circle)
    (hor : ∀ nm, oracle nm = true)
    (hcrop : ∀ c ∈ cs, 0 < cropH h c ∧ 0 < cropW w c)
    (hres : ∀ r ∈ ress, 0 < r) :
    (processCircles oracle n e h w ress 0 cs).1 = expectedWrites n e ress 0 cs.length ∧
    largeName n e 1 = n ++ "_" ++ "large" ++ e ∧
    ∀ k, 2 ≤ k → largeName n e k = n ++ "_" ++ toString k ++ "_" ++ "large" ++ e := by
  refine ⟨?_, ?_, ?_⟩
  · rw [processCircles_success oracle n e h w ress hor hres cs 0 hcrop]
  · rfl
  · intro k hk
    unfold largeName
    rw [if_neg (by omega)]

/-- C1 witness: the amended naming law evaluated on a concrete two-circle
image with every write succeeding. -/
theorem C1_witness :
    (processCircles (fun _ => true) "a" ".png" 1000 1000 [] 0
        [⟨500, 500, 100⟩, ⟨300, 300, 100⟩]).1
      = expectedWrites "a" ".png" [] 0
          ([⟨500, 500, 100⟩, ⟨300, 300, 100⟩] : List Circle).length ∧
    largeName "a" ".png" 2 = "a" ++ "_" ++ toString 2 ++ "_" ++ "large" ++ ".png" :=
  ⟨(C1_naming_indices (fun _ => true) "a" ".png" 1000 1000 []
      [⟨500, 500, 100⟩, ⟨300, 300, 100⟩] (fun _ => rfl) (by decide) (by decide)).1,
   (C1_naming_indices (fun _ => true) "a" ".png" 1000 1000 []
      [⟨500, 500, 100⟩, ⟨300, 300, 100⟩] (fun _ => rfl) (by decide) (by decide)).2.2
     2 (by omega)⟩

/-- C2: when the circle's bounding square lies fully inside the image
bounds (and the image extent fits the `uint16` coordinates the detector
output was converted to), the crop is exactly the masked image sliced to
rows `[cy-r, cy+r)` and columns `[cx-r, cx+r)`, with pixel dimensions
`2r × 2r`. -/
theorem C2_crop_inBounds (src : Img) (c : Circle)
    (hh : src.h < 65536) (hw : src.w < 65536)
    (hcy : c.r ≤ c.cy) (hcyb : c.cy + c.r ≤ src.h)
    (hcx : c.r ≤ c.cx) (hcxb : c.cx + c.r ≤ src.w) :
    (cropCircle (maskedOf src c) c).h = 2 * c.r ∧
    (cropCircle (maskedOf src c) c).w = 2 * c.r ∧
    ∀ y x ch, (cropCircle (maskedOf src c) c).pix y x ch
      = (maskedOf src c).pix (c.cy - c.r + y) (c.cx - c.r + x) ch := by
  refine ⟨?_, ?_, ?_⟩
  · exact slice1D_inBounds src.h c.cy c.r hcy hcyb hh
  · exact slice1D_inBounds src.w c.cx c.r hcx hcxb hw
  · intro y x ch
    have e1 : u16sub c.cy c.r = c.cy - c.r := u16sub_of_le _ _ hcy (by omega)
    have e2 : u16sub c.cx c.r = c.cx - c.r := u16sub_of_le _ _ hcx (by omega)
    show (maskedOf src c).pix (min (u16sub c.cy c.r) src.h + y)
        (min (u16sub c.cx c.r) src.w + x) ch
      = (maskedOf src c).pix (c.cy - c.r + y) (c.cx - c.r + x) ch
    rw [e1, e2, min_eq_left (by omega), min_eq_left (by omega)]

/-- Concrete 6×6 source image used to witness C2. -/
def C2src : Img := ⟨6, 6, fun y x ch => y * 7 + x + ch⟩

/-- Concrete in-bounds circle used to witness C2. -/
def C2circ : Circle := ⟨3, 3, 2⟩

/-- C2 witness: the in-bounds crop law evaluated on a concrete image and
circle whose bounding square lies fully inside the image. -/
theorem C2_witness :
    (cropCircle (maskedOf C2src C2circ) C2circ).h = 2 * C2circ.r ∧
    (cropCircle (maskedOf C2src C2circ) C2circ).w = 2 * C2circ.r ∧
    (cropCircle (maskedOf C2src C2circ) C2circ).pix 0 0 0
      = (maskedOf C2src C2circ).pix (C2circ.cy - C2circ.r + 0) (C2circ.cx - C2circ.r + 0) 0 :=
  ⟨(C2_crop_inBounds C2src C2circ (by decide) (by decide) (by decide) (by decide)
      (by decide) (by decide)).1,
   (C2_crop_inBounds C2src C2circ (by decide) (by decide) (by decide) (by decide)
      (by decide) (by decide)).2.1,
   (C2_crop_inBounds C2src C2circ (by decide) (by decide) (by decide) (by decide)
      (by decide) (by decide)).2.2 0 0 0⟩

/-- C3: the claim says no exception escapes per-image processing, but only
`cv2.imwrite` sits inside a `try` block.  A detected circle with
`center_y < radius` yields an empty crop, `cv2.cvtColor` at line 190 then
raises an uncaught error, and the run dies before later files are
processed: here image "a" (600×800, circle center (100, 50), radius 200)
crashes the run and image "b" is never reached, although "b" alone
processes fine. -/
theorem C3_uncaught_crash :
    cropH 600 ⟨100, 50, 200⟩ = 0 ∧
    processImages (fun _ => true) ".png" []
        [⟨"a", 600, 800, [⟨100, 50, 200⟩]⟩, ⟨"b", 1000, 1000, [⟨500, 500, 100⟩]⟩]
      = ([], true) ∧
    processImages (fun _ => true) ".png" [] [⟨"b", 1000, 1000, [⟨500, 500, 100⟩]⟩]
      = (["b_large.png"], false) := by
  refine ⟨?_, ?_, ?_⟩ <;> decide

/-- C4: `main` does return -1 on usage errors (no arguments; extension
`.gif`), but line 246 calls `main(sys.argv[1:])` without passing the
result to `sys.exit`, so the interpreter's exit status is 0 even for
usage errors — the claimed non-zero termination status never happens. -/
theorem C4_exit_status_zero :
    mainRet [] true = -1 ∧ scriptExitStatus [] true = 0 ∧
    mainRet ["src", "dst", ".gif"] true = -1 ∧
    scriptExitStatus ["src", "dst", ".gif"] true = 0 := by
  refine ⟨?_, ?_, ?_, ?_⟩ <;> decide

/-- C5: for every circle, the large export is written first and resized
exports are attempted only if it succeeded; a write failure at one
resolution keeps the successfully written prefix and aborts the remaining
resolutions of that circle only — the following circles, and the
following images, are still processed. -/
theorem C5_export_order (oracle : String → Bool) (n e : String) (h w : Nat)
    (ress : List Int) (cc : Nat) (c : Circle) (cs : List Circle) (imgs : List ImgCase)
    (hc : 0 < cropH h c ∧ 0 < cropW w c)
    (hcs : ∀ x ∈ cs, 0 < cropH h x ∧ 0 < cropW w x)
    (hres : ∀ r ∈ ress, 0 < r) :
    (oracle (largeName n e (cc + 1)) = false →
      (processCircle oracle n e h w ress cc c).1 = []) ∧
    (oracle (largeName n e (cc + 1)) = true →
      (processCircle oracle n e h w ress cc c).1
        = largeName n e (cc + 1) ::
            ((ress.takeWhile fun r => oracle (resName n e (cc + 1) r)).map
              (resName n e (cc + 1)))) ∧
    (processCircle oracle n e h w ress cc c).2.2 = false ∧
    (processCircles oracle n e h w ress cc (c :: cs)).1
      = (processCircle oracle n e h w ress cc c).1
          ++ (processCircles oracle n e h w ress
                (processCircle oracle n e h w ress cc c).2.1 cs).1 ∧
    processImages oracle e ress (⟨n, h, w, c :: cs⟩ :: imgs)
      = ((processCircles oracle n e h w ress 0 (c :: cs)).1
           ++ (processImages oracle e ress imgs).1,
         (processImages oracle e ress imgs).2) := by
  have hccs : ∀ x ∈ c :: cs, 0 < cropH h x ∧ 0 < cropW w x := by
    intro x hx
    rcases List.mem_cons.mp hx with h1 | h2
    · exact h1 ▸ hc
    · exact hcs x h2
  refine ⟨?_, ?_, ?_, ?_, ?_⟩
  · intro ho
    rw [processCircle_largeFail oracle n e h w ress cc c hc ho]
  · intro ho
    rw [processCircle_largeOk oracle n e h w ress cc c hc ho hres]
  · exact processCircle_crash_false oracle n e h w ress cc c hc hres
  · rw [processCircles_cons oracle n e h w ress cc c cs hc hres]
  · simp only [processImages]
    rw [if_neg (by
      simp [processCircles_crash_false oracle n e h w ress hres (c :: cs) 0 hccs])]

/-- C5 witness: export order on a concrete circle with resolution list
`[1000]` and every write succeeding. -/
theorem C5_witness :
    (processCircle (fun _ => true) "a" ".png" 1000 1000 [1000] 0 ⟨500, 500, 100⟩).1
      = largeName "a" ".png" (0 + 1) ::
          ((([1000] : List Int).takeWhile
              fun r => (fun _ => true) (resName "a" ".png" (0 + 1) r)).map
            (resName "a" ".png" (0 + 1))) ∧
    (processCircle (fun _ => true) "a" ".png" 1000 1000 [1000] 0 ⟨500, 500, 100⟩).2.2
      = false :=
  ⟨(C5_export_order (fun _ => true) "a" ".png" 1000 1000 [1000] 0 ⟨500, 500, 100⟩ [] []
      (by decide) (by decide) (by decide)).2.1 rfl,
   (C5_export_order (fun _ => true) "a" ".png" 1000 1000 [1000] 0 ⟨500, 500, 100⟩ [] []
      (by decide) (by decide) (by decide)).2.2.1⟩

/-- C6: the masked image keeps the source's spatial extent, its three
color channels are pixel-for-pixel the source's, and its alpha channel is
255 exactly at the pixels of the filled disc of the circle's radius
around its center and 0 everywhere else. -/
theorem C6_mask_channels (src : Img) (c : Circle) (y x : Nat) :
    (maskedOf src c).h = src.h ∧ (maskedOf src c).w = src.w ∧
    (maskedOf src c).pix y x 0 = src.pix y x 0 ∧
    (maskedOf src c).pix y x 1 = src.pix y x 1 ∧
    (maskedOf src c).pix y x 2 = src.pix y x 2 ∧
    (maskedOf src c).pix y x 3 = (if inDisc c y x then 255 else 0) := by
  refine ⟨rfl, rfl, ?_, ?_, ?_, ?_⟩ <;>
    simp [maskedOf, setAlpha, bgr2bgra, cvCircleFill, zerosLike]

/-- C7: absent write failures (and uncaught exceptions), an image with
`k ≥ 1` detected circles produces exactly `k * (1 + len(resolutions))`
written files — in particular `1 + len(resolutions)` for a single
circle. -/
theorem C7_write_count (oracle : String → Bool) (n e : String) (h w : Nat)
    (ress : List Int) (cs : List Circle)
    (hor : ∀ nm, oracle nm = true)
    (hcrop : ∀ c ∈ cs, 0 < cropH h c ∧ 0 < cropW w c)
    (hres : ∀ r ∈ ress, 0 < r) :
    (processCircles oracle n e h w ress 0 cs).1.length
      = cs.length * (1 + ress.length) := by
  rw [processCircles_success oracle n e h w ress hor hres cs 0 hcrop]
  exact expectedWrites_length n e ress cs.length 0

/-- C7 witness: a two-circle image with one requested resolution yields
`2 * (1 + 1)` written files. -/
theorem C7_witness :
    (processCircles (fun _ => true) "a" ".png" 1000 1000 [1000] 0
        [⟨500, 500, 100⟩, ⟨300, 300, 100⟩]).1.length
      = ([⟨500, 500, 100⟩, ⟨300, 300, 100⟩] : List Circle).length
          * (1 + ([1000] : List Int).length) :=
  C7_write_count (fun _ => true) "a" ".png" 1000 1000 [1000]
    [⟨500, 500, 100⟩, ⟨300, 300, 100⟩] (fun _ => rfl) (by decide) (by decide)

/-- C8: for every source image, the detector is invoked with minimum
inter-circle distance equal to the (blurred grayscale) image height —
which equals the source image height — and with the radius search bounded
to `[100, 499]`: `minRadius = 100` and
`maxRadius = MAX_RADIUS_OF_CIRCLES_TO_BE_DETECTED - 1 = 499`. -/
theorem C8_hough_params (src : Img) :
    (houghInvocationFor src).minDist = src.h ∧
    (houghInvocationFor src).minRadius = 100 ∧
    (houghInvocationFor src).maxRadius = MAX_RADIUS_OF_CIRCLES_TO_BE_DETECTED - 1 ∧
    (houghInvocationFor src).maxRadius = 499 :=
  ⟨rfl, rfl, rfl, rfl⟩

/-- C9: with only the two folder arguments the settings default to
extension `.png`, compression 0 and resolutions `[1000]`; a provided
extension without a leading dot gets one; and a third argument is
accepted exactly when its dot-normalized form is one of `.jpg`, `.jpeg`,
`.png`, `.bmp`, the run failing before processing otherwise. -/
theorem C9_arg_defaults_and_extensions :
    (∀ s d : String, parseArgs [s, d] = some ⟨".png", 0, [1000]⟩) ∧
    (∀ e' : String, startsWithDot e' = false → normExt e' = "." ++ e') ∧
    (∀ (s d e' : String) (rest : List String) (cfg : Config),
        parseArgs (s :: d :: e' :: rest) = some cfg →
        cfg.ext = normExt e' ∧ normExt e' ∈ validExtensions) ∧
    (∀ (s d e' : String) (rest : List String),
        normExt e' ∉ validExtensions → parseArgs (s :: d :: e' :: rest) = none) := by
  refine ⟨?_, ?_, ?_, ?_⟩
  · intro s d; rfl
  · intro e' he; simp [normExt, he]
  · intro s d e' rest cfg hp
    by_cases hm : normExt e' ∈ validExtensions
    · simp only [parseArgs, extOf, List.get?, if_pos hm] at hp
      rcases hcv : compOf (e' :: rest) with _ | cv <;> rw [hcv] at hp
      · exact absurd hp (by simp)
      · rcases hrv : resolutionsOf (e' :: rest) with _ | rv <;> rw [hrv] at hp
        · exact absurd hp (by simp)
        · simp only [Option.some.injEq] at hp
          exact ⟨by rw [← hp], hm⟩
    · simp only [parseArgs, extOf, List.get?, if_neg hm] at hp
      exact absurd hp (by simp)
  · intro s d e' rest hm
    simp [parseArgs, extOf, List.get?, if_neg hm]

/-- C9 witness: the defaults, the dot normalization, and rejection of the
extension `gif` on concrete argument vectors. -/
theorem C9_witness :
    parseArgs ["s", "d"] = some ⟨".png", 0, [1000]⟩ ∧
    normExt "png" = "." ++ "png" ∧
    parseArgs ["s", "d", "gif"] = none :=
  ⟨C9_arg_defaults_and_extensions.1 "s" "d",
   C9_arg_defaults_and_extensions.2.1 "png" (by decide),
   C9_arg_defaults_and_extensions.2.2.2 "s" "d" "gif" [] (by decide)⟩

/-- C10: detector output is stored as `uint16` before cropping, so for a
circle with `center_y < radius` (resp. `center_x < radius`) the slice
start underflows modulo `2^16` to the large positive index
`center + 65536 - radius` (beyond the center itself), and whatever the
image extent the crop is empty or truncated — strictly smaller than the
full `2*radius` side — instead of a Python negative-index slice from the
opposite edge. -/
theorem C10_uint16_underflow (c : Circle)
    (hx : c.cx < 65536) (hy : c.cy < 65536) (hr : c.r < 65536)
    (hu : c.cx < c.r ∨ c.cy < c.r) :
    (c.cy < c.r → u16sub c.cy c.r = c.cy + 65536 - c.r ∧ c.cy < u16sub c.cy c.r) ∧
    (c.cx < c.r → u16sub c.cx c.r = c.cx + 65536 - c.r ∧ c.cx < u16sub c.cx c.r) ∧
    ∀ h w : Nat, cropH h c < 2 * c.r ∨ cropW w c < 2 * c.r := by
  refine ⟨?_, ?_, ?_⟩
  · intro hcy
    have hs := u16sub_of_lt c.cy c.r hcy
    exact ⟨hs, by rw [hs]; omega⟩
  · intro hcx
    have hs := u16sub_of_lt c.cx c.r hcx
    exact ⟨hs, by rw [hs]; omega⟩
  · intro h w
    rcases hu with hxx | hyy
    · exact Or.inr (slice1D_underflow w c.cx c.r hxx hr hx)
    · exact Or.inl (slice1D_underflow h c.cy c.r hyy hr hy)

/-- C10 witness: a circle at center (50, 50) with radius 100 — both slice
starts underflow to 65486 and the crop cannot reach the full 200-pixel
side on a 600×800 image. -/
theorem C10_witness :
    (u16sub 50 100 = 50 + 65536 - 100 ∧ (50 : Nat) < u16sub 50 100) ∧
    (cropH 600 ⟨50, 50, 100⟩ < 2 * 100 ∨ cropW 800 ⟨50, 50, 100⟩ < 2 * 100) :=
  ⟨(C10_uint16_underflow ⟨50, 50, 100⟩ (by decide) (by decide) (by decide)
      (Or.inl (by decide))).1 (by decide),
   (C10_uint16_underflow ⟨50, 50, 100⟩ (by decide) (by decide) (by decide)
      (Or.inl (by decide))).2.2 600 800⟩

end CropResize
